import Mathlib

/-!
Shallow embedding of the fault-tree Monte-Carlo simulator (src/main.rs).

Modelling conventions:
- `Option` models Rust panics: `none` is a panic/abort, `some v` a normal return.
- Event times (`f64` in the source) are modelled as rationals `ℚ`.
- Random draws are passed in as explicit oracle values (`draw : ℚ`), since
  random-variate generation is an external library concern.
- The trait-object vector `Vec<Box<dyn FTElement>>` becomes a list over the
  closed sum `FTElem` of the four implementing structs.
- `FT::get_failed` recurses through child identifiers with no structural
  guarantee of termination in the source, so the embedding is fuel-indexed:
  `getFailedAux fuel` with fuel consumed once per recursive dispatch.
-/

namespace MC

def STATUS_ALIVE : Nat := 0
def STATUS_DEAD : Nat := 1
def STATUS_DYNAMIC : Nat := 2

def DIST_EXP : Nat := 0
def DIST_WEIBULL : Nat := 1
def DIST_GAMMA : Nat := 2
def DIST_NONE : Nat := 3

def FT_BASIC : Nat := 0
def FT_STATIC : Nat := 1

def EVENT_FAILURE : Nat := 0
def EVENT_REPAIR : Nat := 1

/-- enum DistributionType from src/main.rs: parameters of the wrapped statrs law. -/
inductive DistributionType where
| Exp (rate : ℚ)
| Gamma (shape rate : ℚ)
| Weibull (shape scale : ℚ)
| None
deriving DecidableEq

/-- struct BasicEvent from src/main.rs. -/
structure BasicEvent where
  id : Nat
  status : Nat
  failure_distribution : DistributionType
  repair_distribution : DistributionType
deriving DecidableEq

/-- struct GateAnd from src/main.rs (Children collapsed to its Vec<usize>). -/
structure GateAnd where
  id : Nat
  children : List Nat
deriving DecidableEq

/-- struct GateOr from src/main.rs. -/
structure GateOr where
  id : Nat
  children : List Nat
deriving DecidableEq

/-- struct GateVote from src/main.rs. -/
structure GateVote where
  id : Nat
  children : List Nat
deriving DecidableEq

/-- The closed set of FTElement trait implementors in src/main.rs. -/
inductive FTElem where
| basic (b : BasicEvent)
| gateAnd (g : GateAnd)
| gateOr (g : GateOr)
| gateVote (g : GateVote)
deriving DecidableEq

/-- FTElement::get_id for each implementor. -/
def FTElem.get_id : FTElem → Nat
| .basic b => b.id
| .gateAnd g => g.id
| .gateOr g => g.id
| .gateVote g => g.id

/-- FTElement::get_type: FT_BASIC for BasicEvent, FT_STATIC for all gates. -/
def FTElem.get_type : FTElem → Nat
| .basic _ => FT_BASIC
| .gateAnd _ => FT_STATIC
| .gateOr _ => FT_STATIC
| .gateVote _ => FT_STATIC

/-- BasicEvent::set_status: stores the given status with no validation. -/
def BasicEvent.set_status (b : BasicEvent) (status : Nat) : BasicEvent :=
  { b with status := status }

/-- FTElement::set_status: BasicEvent stores the value; every gate panics
("Cannot manually set ... gate status"), modelled as `none`. -/
def FTElem.set_status : FTElem → Nat → Option FTElem
| .basic b, status => some (.basic (b.set_status status))
| .gateAnd _, _ => none
| .gateOr _, _ => none
| .gateVote _, _ => none

/-- BasicEvent::get_failed (the status part): Alive ↦ false, Dead ↦ true,
any other status panics ("Incorrect event status"), modelled as `none`. -/
def BasicEvent.get_failed (b : BasicEvent) : Option Bool :=
  if b.status = STATUS_ALIVE then some false
  else if b.status = STATUS_DEAD then some true
  else none

/-- struct FT from src/main.rs. -/
structure FT where
  root : Nat
  elements : List FTElem
deriving DecidableEq

/-- GateAnd::get_failed's loop over children, abstracted over the child
evaluator: return false at the first non-failed child, propagate a child
panic, return true if the loop completes. -/
def allFailed (eval : Nat → Option Bool) : List Nat → Option Bool
| [] => some true
| c :: rest =>
  match eval c with
  | none => none
  | some b => if b then allFailed eval rest else some false

/-- GateOr::get_failed's loop over children: return true at the first failed
child, propagate a child panic, return false if the loop completes. -/
def anyFailed (eval : Nat → Option Bool) : List Nat → Option Bool
| [] => some false
| c :: rest =>
  match eval c with
  | none => none
  | some b => if b then some true else anyFailed eval rest

/-- GateVote::get_failed's counting loop over children: count failed children
in order, propagating a child panic. -/
def countFailed (eval : Nat → Option Bool) : List Nat → Option Nat
| [] => some 0
| c :: rest =>
  match eval c with
  | none => none
  | some b =>
    match countFailed eval rest with
    | none => none
    | some f => some (if b then f + 1 else f)

/-- FT::get_failed together with each element's FTElement::get_failed,
fuel-indexed (one unit per dispatch through the tree's accessor).
`elements.get(id).unwrap()` panics (`none`) when `id` is out of range. -/
def FT.getFailedAux (ft : FT) : Nat → Nat → Option Bool
| 0, _ => none
| fuel + 1, id =>
  match ft.elements[id]? with
  | none => none
  | some (FTElem.basic b) => b.get_failed
  | some (FTElem.gateAnd g) => allFailed (ft.getFailedAux fuel) g.children
  | some (FTElem.gateOr g) => anyFailed (ft.getFailedAux fuel) g.children
  | some (FTElem.gateVote g) =>
    match countFailed (ft.getFailedAux fuel) g.children with
    | none => none
    | some f => some (decide (g.children.length / 2 < f))

/-- FT::get_failed entry point: dispatch with ample fuel for any tree whose
recursion depth is bounded by its element count. -/
def FT.get_failed (ft : FT) (id : Nat) : Option Bool :=
  ft.getFailedAux (ft.elements.length + 1) id

/-- FT::get_basic_events: the identifiers (indices) of elements whose type is
FT_BASIC, in index order. -/
def FT.get_basic_events (ft : FT) : List Nat :=
  (List.range ft.elements.length).filter fun i =>
    match ft.elements[i]? with
    | some el => el.get_type == FT_BASIC
    | none => false

/-- struct EventTime from src/main.rs. -/
structure EventTime where
  time : ℚ
  element : Nat
  event_type : Nat
deriving DecidableEq

/-- FT::process_event_time: Failure sets the element's status to Dead, Repair
sets it to Alive, any other event type panics. The element lookup's `unwrap`
and a gate's `set_status` panic are both `none`. -/
def FT.process_event_time (ft : FT) (ev : EventTime) : Option FT :=
  if ev.event_type = EVENT_FAILURE then
    match ft.elements[ev.element]? with
    | none => none
    | some el =>
      match el.set_status STATUS_DEAD with
      | none => none
      | some el2 => some { ft with elements := ft.elements.set ev.element el2 }
  else if ev.event_type = EVENT_REPAIR then
    match ft.elements[ev.element]? with
    | none => none
    | some el =>
      match el.set_status STATUS_ALIVE with
      | none => none
      | some el2 => some { ft with elements := ft.elements.set ev.element el2 }
  else none

/-- The body of FT::reset_basic_events' for-loop: for each listed index, set
that element's status back to Alive through the same `get_mut(i).unwrap()` /
`set_status` path (panics modelled as `none`). -/
def resetLoop : List Nat → FT → Option FT
| [], acc => some acc
| i :: rest, acc =>
  match acc.elements[i]? with
  | none => none
  | some el =>
    match el.set_status STATUS_ALIVE with
    | none => none
    | some el2 => resetLoop rest { acc with elements := acc.elements.set i el2 }

/-- FT::reset_basic_events: iterate the reset loop over get_basic_events. -/
def FT.reset_basic_events (ft : FT) : Option FT :=
  resetLoop ft.get_basic_events ft

/-- Parameter validation of the external statrs `Exp::new(rate)` constructor,
as used by BasicEvent::new: the rate must be strictly positive (NaN is not
representable over ℚ). `none` is the library's `Err` result. -/
def Exp_new (rate : ℚ) : Option DistributionType :=
  if 0 < rate then some (.Exp rate) else none

/-- Parameter validation of the external statrs `Gamma::new(shape, rate)`
constructor: both parameters strictly positive. -/
def Gamma_new (shape rate : ℚ) : Option DistributionType :=
  if 0 < shape ∧ 0 < rate then some (.Gamma shape rate) else none

/-- Parameter validation of the external statrs `Weibull::new(shape, scale)`
constructor: both parameters strictly positive. -/
def Weibull_new (shape scale : ℚ) : Option DistributionType :=
  if 0 < shape ∧ 0 < scale then some (.Weibull shape scale) else none

/-- BasicEvent::new from src/main.rs. Every library constructor result is
`.unwrap()`ed and every unknown distribution tag hits a `panic!` arm, so any
rejected parameter set aborts: the whole constructor is `none` (panic), never
an error value. The `println!` shape warnings are side effects with no result.
Status starts Alive. -/
def BasicEvent.new (id : Nat) (failure_distribution : Nat)
    (failure_scale failure_shape : ℚ) (repair_distribution : Nat)
    (repair_scale repair_shape : ℚ) : Option BasicEvent :=
  match
    (if failure_distribution = DIST_EXP then Exp_new failure_scale
     else if failure_distribution = DIST_GAMMA then
       Gamma_new failure_shape failure_scale
     else if failure_distribution = DIST_WEIBULL then
       Weibull_new failure_shape failure_scale
     else none)
  with
  | none => none
  | some fd =>
    match
      (if repair_distribution = DIST_EXP then Exp_new repair_scale
       else if repair_distribution = DIST_GAMMA then
         Gamma_new repair_shape repair_scale
       else if repair_distribution = DIST_WEIBULL then
         Weibull_new repair_shape repair_scale
       else if repair_distribution = DIST_NONE then some DistributionType.None
       else none)
    with
    | none => none
    | some rd => some ⟨id, STATUS_ALIVE, fd, rd⟩

/-- BasicEvent::sample_failure: draws from the failure law (the drawn variate
is the oracle `draw`); the None law hits `panic!("Cannot sample a none
distribution")`. -/
def BasicEvent.sample_failure (b : BasicEvent) (draw : ℚ) : Option ℚ :=
  match b.failure_distribution with
  | .None => none
  | _ => some draw

/-- BasicEvent::sample_repair: draws from the repair law; the None law
returns exactly 0.0. -/
def BasicEvent.sample_repair (b : BasicEvent) (draw : ℚ) : ℚ :=
  match b.repair_distribution with
  | .None => 0
  | _ => draw

/-- FT::sample_failure: `Err("Not a basic event")` for a gate, `unwrap` panic
(`none`) for an out-of-range id or a None failure law. -/
def FT.sample_failure (ft : FT) (element : Nat) (draw : ℚ) :
    Option (Except String ℚ) :=
  match ft.elements[element]? with
  | none => none
  | some (FTElem.basic b) => (b.sample_failure draw).map Except.ok
  | some _ => some (Except.error "Not a basic event")

/-- FT::sample_repair: `Err("Not a basic event")` for a gate, `unwrap` panic
(`none`) for an out-of-range id. -/
def FT.sample_repair (ft : FT) (element : Nat) (draw : ℚ) :
    Option (Except String ℚ) :=
  match ft.elements[element]? with
  | none => none
  | some (FTElem.basic b) => some (Except.ok (b.sample_repair draw))
  | some _ => some (Except.error "Not a basic event")

/-- The schedule-insertion index scan from main (repeated verbatim at the
three insertion sites): advance while `new_time > event_times[index].time`. -/
def findInsertIndex (t : ℚ) : List EventTime → Nat
| [] => 0
| e :: rest => if t > e.time then findInsertIndex t rest + 1 else 0

/-- `event_times.insert(index, event_time)` with the scanned index: the
order-preserving insertion used by the schedule. -/
def insertEvent (ev : EventTime) (l : List EventTime) : List EventTime :=
  l.insertIdx (findInsertIndex ev.time l) ev

/-- Outcome of one iteration of the trial loop in main: either the trial
ends recording the current time, or it continues with the mutated tree and
remaining schedule. -/
inductive StepOutcome where
| ended (time : ℚ)
| next (ft : FT) (schedule : List EventTime)
deriving DecidableEq

/-- One iteration of the per-trial event loop in main. `root` is `root_id`
and `draw` the oracle value for the single sampling call the iteration can
make. `event_times.remove(0)` on an empty schedule panics; every `.unwrap()`
panic propagates as `none`. -/
def trialStep (root : Nat) (draw : ℚ) (ft : FT) :
    List EventTime → Option StepOutcome
| [] => none
| ev :: rest =>
  match ft.process_event_time ev with
  | none => none
  | some ft2 =>
    if ev.event_type = EVENT_FAILURE then
      match ft2.get_failed root with
      | none => none
      | some true => some (.ended ev.time)
      | some false =>
        match ft2.sample_repair ev.element draw with
        | none => none
        | some (.error _) => none
        | some (.ok repair_interval) =>
          if repair_interval > 0 then
            some (.next ft2 (insertEvent
              ⟨ev.time + repair_interval, ev.element, EVENT_REPAIR⟩ rest))
          else
            some (.next ft2 rest)
    else if ev.event_type = EVENT_REPAIR then
      match ft2.sample_failure ev.element draw with
      | none => none
      | some (.error _) => none
      | some (.ok failure_interval) =>
        some (.next ft2 (insertEvent
          ⟨ev.time + failure_interval, ev.element, EVENT_FAILURE⟩ rest))
    else
      some (.next ft2 rest)

/-- The schedule as seeded in main: successive ordered insertions starting
from the empty vector. -/
def buildSchedule (evs : List EventTime) : List EventTime :=
  evs.foldl (fun acc e => insertEvent e acc) []

/-! ### Schedule lemmas -/

theorem insertEvent_nil (ev : EventTime) : insertEvent ev [] = [ev] := rfl

theorem findInsertIndex_cons (t : ℚ) (e : EventTime) (rest : List EventTime) :
    findInsertIndex t (e :: rest) =
      if t > e.time then findInsertIndex t rest + 1 else 0 := rfl

theorem insertEvent_cons (ev e : EventTime) (rest : List EventTime) :
    insertEvent ev (e :: rest) =
      if ev.time > e.time then e :: insertEvent ev rest else ev :: e :: rest := by
  unfold insertEvent
  rw [findInsertIndex_cons]
  by_cases h : ev.time > e.time
  · simp only [if_pos h, List.insertIdx_succ_cons]
  · simp only [if_neg h, List.insertIdx_zero]

theorem insertEvent_eq_take_drop (ev : EventTime) (l : List EventTime) :
    insertEvent ev l =
      l.takeWhile (fun e => decide (e.time < ev.time)) ++
        ev :: l.dropWhile (fun e => decide (e.time < ev.time)) := by
  induction l with
  | nil => simp [insertEvent_nil]
  | cons e rest ih =>
    rw [insertEvent_cons]
    by_cases h : ev.time > e.time
    · have he : (fun e => decide (e.time < ev.time)) e = true := by
        simpa using h
      simp only [if_pos h, ih, List.takeWhile_cons, List.dropWhile_cons, he,
        if_true, List.cons_append]
    · have he : (fun e => decide (e.time < ev.time)) e = false := by
        simpa using h
      simp only [if_neg h, List.takeWhile_cons, List.dropWhile_cons, he,
        Bool.false_eq_true, if_false, List.nil_append]

theorem mem_insertEvent {x ev : EventTime} {l : List EventTime} :
    x ∈ insertEvent ev l ↔ x = ev ∨ x ∈ l := by
  induction l with
  | nil => simp [insertEvent_nil]
  | cons e rest ih =>
    rw [insertEvent_cons]
    by_cases h : ev.time > e.time
    · simp only [if_pos h, List.mem_cons, ih]
      tauto
    · simp only [if_neg h, List.mem_cons]

theorem pairwise_insertEvent {l : List EventTime} (ev : EventTime)
    (h : List.Pairwise (fun a b => a.time ≤ b.time) l) :
    List.Pairwise (fun a b => a.time ≤ b.time) (insertEvent ev l) := by
  induction l with
  | nil => simp [insertEvent_nil]
  | cons e rest ih =>
    rw [List.pairwise_cons] at h
    rw [insertEvent_cons]
    by_cases hc : ev.time > e.time
    · rw [if_pos hc, List.pairwise_cons]
      refine ⟨?_, ih h.2⟩
      intro x hx
      rcases mem_insertEvent.1 hx with rfl | hx
      · exact le_of_lt hc
      · exact h.1 x hx
    · rw [if_neg hc, List.pairwise_cons]
      push_neg at hc
      refine ⟨?_, List.pairwise_cons.2 h⟩
      intro x hx
      rcases List.mem_cons.1 hx with rfl | hx
      · exact hc
      · exact le_trans hc (h.1 x hx)

theorem pairwise_buildSchedule (evs : List EventTime) :
    List.Pairwise (fun a b => a.time ≤ b.time) (buildSchedule evs) := by
  have key : ∀ (evs acc : List EventTime),
      List.Pairwise (fun a b => a.time ≤ b.time) acc →
      List.Pairwise (fun a b => a.time ≤ b.time)
        (evs.foldl (fun acc e => insertEvent e acc) acc) := by
    intro evs
    induction evs with
    | nil => intro acc h; simpa using h
    | cons e rest ih =>
      intro acc h
      exact ih _ (pairwise_insertEvent e h)
  exact key evs [] (by simp)

theorem mem_takeWhile_time_lt {t : ℚ} :
    ∀ {l : List EventTime} {x : EventTime},
      x ∈ l.takeWhile (fun e => decide (e.time < t)) → x.time < t := by
  intro l
  induction l with
  | nil => intro x hx; simp at hx
  | cons e rest ih =>
    intro x hx
    rw [List.takeWhile_cons] at hx
    by_cases he : e.time < t
    · have hd : decide (e.time < t) = true := by simpa using he
      rw [hd, if_pos rfl] at hx
      rcases List.mem_cons.1 hx with rfl | hx
      · exact he
      · exact ih hx
    · have hd : decide (e.time < t) = false := by simpa using he
      rw [hd] at hx
      simp at hx

theorem takeWhile_append_cons {α : Type} (p : α → Bool) (T : List α) (e : α)
    (D : List α) (hT : ∀ x ∈ T, p x = true) (he : p e = false) :
    (T ++ e :: D).takeWhile p = T ∧ (T ++ e :: D).dropWhile p = e :: D := by
  induction T with
  | nil => simp [List.takeWhile_cons, List.dropWhile_cons, he]
  | cons a T ih =>
    have ha : p a = true := hT a (List.mem_cons_self a T)
    have hrest := ih fun x hx => hT x (List.mem_cons_of_mem a hx)
    simp [List.takeWhile_cons, List.dropWhile_cons, ha, hrest.1, hrest.2]

/-- C3: every schedule insertion lands immediately before the first existing
record whose time is not strictly less than the new record's time, and the
times of a schedule built by any sequence of inserts — which is exactly the
sequence popped by repeated `remove(0)` — are non-decreasing. -/
theorem C3_schedule_insert_position_and_pop_order :
    (∀ (ev : EventTime) (l : List EventTime),
        insertEvent ev l =
          l.takeWhile (fun e => decide (e.time < ev.time)) ++
            ev :: l.dropWhile (fun e => decide (e.time < ev.time))) ∧
    ∀ evs : List EventTime,
      List.Pairwise (· ≤ ·) ((buildSchedule evs).map EventTime.time) := by
  refine ⟨insertEvent_eq_take_drop, fun evs => ?_⟩
  rw [List.pairwise_map]
  exact pairwise_buildSchedule evs

/-- C9: an event inserted with a time equal to already-present records' times
goes in front of all of them: every record placed before the new one has a
strictly smaller time, and inserting two equal-time events in sequence leaves
the later insertion immediately in front of the earlier one, so equal-time
events are popped in reverse order of insertion. -/
theorem C9_equal_time_inserted_first (e1 e2 : EventTime) (l : List EventTime)
    (h : e1.time = e2.time) :
    (∀ x ∈ l.takeWhile (fun e => decide (e.time < e1.time)), x.time < e1.time) ∧
    insertEvent e2 (insertEvent e1 l) =
      l.takeWhile (fun e => decide (e.time < e1.time)) ++
        e2 :: e1 :: l.dropWhile (fun e => decide (e.time < e1.time)) := by
  constructor
  · intro x hx
    exact mem_takeWhile_time_lt hx
  · rw [insertEvent_eq_take_drop e1 l, insertEvent_eq_take_drop e2, ← h]
    have hT : ∀ x ∈ l.takeWhile (fun e => decide (e.time < e1.time)),
        (fun e => decide (e.time < e1.time)) x = true := by
      intro x hx
      simpa using mem_takeWhile_time_lt hx
    have he : (fun e => decide (e.time < e1.time)) e1 = false := by simp
    have hkey := takeWhile_append_cons (fun e => decide (e.time < e1.time))
      (l.takeWhile (fun e => decide (e.time < e1.time))) e1
      (l.dropWhile (fun e => decide (e.time < e1.time))) hT he
    rw [hkey.1, hkey.2]

/-- Witness for C9 at a concrete schedule: two equal-time events inserted in
sequence into a two-record schedule. -/
theorem C9_witness :
    (∀ x ∈ (([⟨1, 0, 0⟩, ⟨5, 3, 0⟩] : List EventTime).takeWhile
        (fun e => decide (e.time < (⟨3, 1, 0⟩ : EventTime).time))),
      x.time < (⟨3, 1, 0⟩ : EventTime).time) ∧
    insertEvent ⟨3, 2, 0⟩ (insertEvent ⟨3, 1, 0⟩ [⟨1, 0, 0⟩, ⟨5, 3, 0⟩]) =
      (([⟨1, 0, 0⟩, ⟨5, 3, 0⟩] : List EventTime).takeWhile
          (fun e => decide (e.time < (⟨3, 1, 0⟩ : EventTime).time))) ++
        ⟨3, 2, 0⟩ :: ⟨3, 1, 0⟩ ::
          (([⟨1, 0, 0⟩, ⟨5, 3, 0⟩] : List EventTime).dropWhile
            (fun e => decide (e.time < (⟨3, 1, 0⟩ : EventTime).time))) :=
  C9_equal_time_inserted_first ⟨3, 1, 0⟩ ⟨3, 2, 0⟩ [⟨1, 0, 0⟩, ⟨5, 3, 0⟩] rfl

/-! ### Gate evaluation lemmas -/

theorem allFailed_eq_some_true_iff (eval : Nat → Option Bool) (cs : List Nat) :
    allFailed eval cs = some true ↔ ∀ c ∈ cs, eval c = some true := by
  induction cs with
  | nil => simp [allFailed]
  | cons c rest ih =>
    simp only [allFailed]
    cases hc : eval c with
    | none => simp [hc]
    | some b =>
      cases b with
      | true => simp [hc, ih]
      | false => simp [hc]

theorem countFailed_le {eval : Nat → Option Bool} :
    ∀ {cs : List Nat} {f : Nat}, countFailed eval cs = some f → f ≤ cs.length := by
  intro cs
  induction cs with
  | nil => intro f hf; simp [countFailed] at hf; omega
  | cons c rest ih =>
    intro f hf
    simp only [countFailed] at hf
    cases hc : eval c with
    | none => rw [hc] at hf; exact absurd hf (by simp)
    | some b =>
      rw [hc] at hf
      cases hr : countFailed eval rest with
      | none => rw [hr] at hf; exact absurd hf (by simp)
      | some k =>
        rw [hr] at hf
        have hk := ih hr
        have : f = if b then k + 1 else k := by
          cases hf
          rfl
        have hlen : (c :: rest).length = rest.length + 1 := rfl
        cases b <;> simp at this <;> omega

/-- C1 (amended): an AND gate's query_failed is true iff every child's
query_failed is true, and — by vacuous truth — an AND gate with an empty
child set IS failed. Fuel-indexed: the gate dispatches at fuel+1, the
children evaluate at fuel. -/
theorem C1_and_failed_iff_all_children (ft : FT) (fuel id : Nat) (g : GateAnd)
    (h : ft.elements[id]? = some (.gateAnd g)) :
    (ft.getFailedAux (fuel + 1) id = some true ↔
      ∀ c ∈ g.children, ft.getFailedAux fuel c = some true) ∧
    (g.children = [] → ft.getFailedAux (fuel + 1) id = some true) := by
  have hunf : ft.getFailedAux (fuel + 1) id =
      allFailed (ft.getFailedAux fuel) g.children := by
    simp [FT.getFailedAux, h]
  constructor
  · rw [hunf]
    exact allFailed_eq_some_true_iff _ _
  · intro he
    rw [hunf, he]
    rfl

/-- Counterexample for C1 as stated: for the fault tree consisting of a
single AND gate with an empty child set, FT::get_failed returns true (the
gate IS failed), not false as the claim's "empty child set ⇒ not failed"
requires. -/
theorem C1_counterexample_empty_and_is_failed :
    FT.get_failed ⟨0, [FTElem.gateAnd ⟨0, []⟩]⟩ 0 = some true ∧
    FT.get_failed ⟨0, [FTElem.gateAnd ⟨0, []⟩]⟩ 0 ≠ some false := by
  exact ⟨rfl, by decide⟩

/-- Witness for C1's amended theorem: a two-child AND gate over one dead and
one alive basic event. -/
theorem C1_witness :
    (FT.getFailedAux
        ⟨2, [FTElem.basic ⟨0, 1, .None, .None⟩,
             FTElem.basic ⟨1, 0, .None, .None⟩,
             FTElem.gateAnd ⟨2, [0, 1]⟩]⟩ (1 + 1) 2 = some true ↔
      ∀ c ∈ (GateAnd.mk 2 [0, 1]).children,
        FT.getFailedAux
          ⟨2, [FTElem.basic ⟨0, 1, .None, .None⟩,
               FTElem.basic ⟨1, 0, .None, .None⟩,
               FTElem.gateAnd ⟨2, [0, 1]⟩]⟩ 1 c = some true) ∧
    ((GateAnd.mk 2 [0, 1]).children = [] →
      FT.getFailedAux
        ⟨2, [FTElem.basic ⟨0, 1, .None, .None⟩,
             FTElem.basic ⟨1, 0, .None, .None⟩,
             FTElem.gateAnd ⟨2, [0, 1]⟩]⟩ (1 + 1) 2 = some true) :=
  C1_and_failed_iff_all_children
    ⟨2, [FTElem.basic ⟨0, 1, .None, .None⟩,
         FTElem.basic ⟨1, 0, .None, .None⟩,
         FTElem.gateAnd ⟨2, [0, 1]⟩]⟩ 1 2 ⟨2, [0, 1]⟩ rfl

/-- C5: a Vote gate with n children of which f are failed is failed iff
f > ⌊n/2⌋; for n = 3 that is f ∈ {2,3}, and for n = 2 it is f = 2,
coinciding with AND. Fuel-indexed as in C1. -/
theorem C5_vote_failed_iff_majority (ft : FT) (fuel id : Nat) (g : GateVote)
    (f : Nat) (h : ft.elements[id]? = some (.gateVote g))
    (hcount : countFailed (ft.getFailedAux fuel) g.children = some f) :
    (ft.getFailedAux (fuel + 1) id = some true ↔ g.children.length / 2 < f) ∧
    (g.children.length = 3 →
      (ft.getFailedAux (fuel + 1) id = some true ↔ f = 2 ∨ f = 3)) ∧
    (g.children.length = 2 →
      (ft.getFailedAux (fuel + 1) id = some true ↔ f = 2)) := by
  have hle : f ≤ g.children.length := countFailed_le hcount
  have hunf : ft.getFailedAux (fuel + 1) id =
      some (decide (g.children.length / 2 < f)) := by
    simp [FT.getFailedAux, h, hcount]
  have hiff : ft.getFailedAux (fuel + 1) id = some true ↔
      g.children.length / 2 < f := by
    rw [hunf]
    simp
  refine ⟨hiff, fun h3 => ?_, fun h2 => ?_⟩
  · rw [hiff, h3]
    rw [h3] at hle
    omega
  · rw [hiff, h2]
    rw [h2] at hle
    omega

/-- Witness for C5: the majority-of-three Vote gate over two dead and one
alive basic events, with the failed-child count evaluated to 2. -/
theorem C5_witness :
    (FT.getFailedAux
        ⟨3, [FTElem.basic ⟨0, 1, .None, .None⟩,
             FTElem.basic ⟨1, 1, .None, .None⟩,
             FTElem.basic ⟨2, 0, .None, .None⟩,
             FTElem.gateVote ⟨3, [0, 1, 2]⟩]⟩ (1 + 1) 3 = some true ↔
      (GateVote.mk 3 [0, 1, 2]).children.length / 2 < 2) ∧
    ((GateVote.mk 3 [0, 1, 2]).children.length = 3 →
      (FT.getFailedAux
          ⟨3, [FTElem.basic ⟨0, 1, .None, .None⟩,
               FTElem.basic ⟨1, 1, .None, .None⟩,
               FTElem.basic ⟨2, 0, .None, .None⟩,
               FTElem.gateVote ⟨3, [0, 1, 2]⟩]⟩ (1 + 1) 3 = some true ↔
        (2 : Nat) = 2 ∨ (2 : Nat) = 3)) ∧
    ((GateVote.mk 3 [0, 1, 2]).children.length = 2 →
      (FT.getFailedAux
          ⟨3, [FTElem.basic ⟨0, 1, .None, .None⟩,
               FTElem.basic ⟨1, 1, .None, .None⟩,
               FTElem.basic ⟨2, 0, .None, .None⟩,
               FTElem.gateVote ⟨3, [0, 1, 2]⟩]⟩ (1 + 1) 3 = some true ↔
        (2 : Nat) = 2)) :=
  C5_vote_failed_iff_majority
    ⟨3, [FTElem.basic ⟨0, 1, .None, .None⟩,
         FTElem.basic ⟨1, 1, .None, .None⟩,
         FTElem.basic ⟨2, 0, .None, .None⟩,
         FTElem.gateVote ⟨3, [0, 1, 2]⟩]⟩ 1 3 ⟨3, [0, 1, 2]⟩ 2 rfl rfl

/-! ### Out-of-range queries, constructor validation, raw status writes -/

/-- C2 (amended): FT::get_failed with an out-of-range identifier panics —
the `.unwrap()` on the missing element aborts (modelled as `none`); the
function's return type is a plain bool, so no typed UnknownElement error can
be reported. -/
theorem C2_out_of_range_query_is_panic (ft : FT) (id : Nat)
    (h : ft.elements[id]? = none) : ft.get_failed id = none := by
  rw [FT.get_failed]
  simp [FT.getFailedAux, h]

/-- Counterexample for C2 as stated: querying id 0 of the empty element
collection yields the panic marker `none` — an untyped crash — and not any
reportable UnknownElement error value (the embedding's only non-panic
outcomes are `some b`). -/
theorem C2_counterexample_untyped_crash :
    FT.get_failed ⟨0, []⟩ 0 = none := rfl

/-- Witness for C2's amended theorem at the empty tree. -/
theorem C2_witness : FT.get_failed ⟨0, []⟩ 0 = none :=
  C2_out_of_range_query_is_panic ⟨0, []⟩ 0 rfl

/-- C6 (amended): BasicEvent::new with invalid distribution parameters — a
non-positive rate for an exponential failure law — panics (`unwrap` on the
library constructor's Err), aborting fatally instead of reporting a
recoverable validation failure. -/
theorem C6_invalid_params_abort (id : Nat) (failure_scale failure_shape : ℚ)
    (repair_distribution : Nat) (repair_scale repair_shape : ℚ)
    (h : failure_scale ≤ 0) :
    BasicEvent.new id DIST_EXP failure_scale failure_shape
      repair_distribution repair_scale repair_shape = none := by
  have hneg : ¬(0 < failure_scale) := not_lt.2 h
  simp [BasicEvent.new, Exp_new, hneg]

/-- Counterexample for C6 as stated: constructing a Basic Event with an
exponential failure law of rate 0 produces the panic marker `none` — a fatal
abort — not a recoverable error value (BasicEvent::new returns a bare
BasicEvent, so no error can be reported to the caller). -/
theorem C6_counterexample_fatal_abort :
    BasicEvent.new 0 DIST_EXP 0 0 DIST_NONE 0 0 = none := by decide

/-- Witness for C6's amended theorem at rate 0. -/
theorem C6_witness :
    BasicEvent.new 1 DIST_EXP 0 0 DIST_EXP 1 0 = none :=
  C6_invalid_params_abort 1 0 0 DIST_EXP 1 0 le_rfl

/-- C10: BasicEvent::set_status stores any status value without validation
(including STATUS_DYNAMIC and arbitrary integers); the tri-state invariant
is enforced fatally only at the next get_failed, which panics exactly when
the stored status is neither Alive nor Dead. -/
theorem C10_set_status_unvalidated (b : BasicEvent) (s : Nat) :
    (b.set_status s).status = s ∧
    ((b.set_status s).get_failed = none ↔
      s ≠ STATUS_ALIVE ∧ s ≠ STATUS_DEAD) ∧
    (b.set_status STATUS_DYNAMIC).get_failed = none := by
  refine ⟨rfl, ?_, rfl⟩
  unfold BasicEvent.get_failed BasicEvent.set_status
  by_cases h0 : s = STATUS_ALIVE
  · simp [h0, STATUS_ALIVE, STATUS_DEAD]
  · by_cases h1 : s = STATUS_DEAD
    · simp [h0, h1, STATUS_ALIVE, STATUS_DEAD]
    · simp only [STATUS_ALIVE, STATUS_DEAD] at h0 h1 ⊢
      simp [h0, h1]

/-- C7: applying a Failure event then a Repair event to a Basic Event
returns its status to Alive, and after the Failure event alone that Basic
Event's own get_failed returns true. -/
theorem C7_failure_repair_round_trip (ft : FT) (i : Nat) (b : BasicEvent)
    (t t2 : ℚ) (h : ft.elements[i]? = some (.basic b)) :
    ∃ ft1 ft2 : FT,
      ft.process_event_time ⟨t, i, EVENT_FAILURE⟩ = some ft1 ∧
      ft1.elements[i]? = some (.basic (b.set_status STATUS_DEAD)) ∧
      (b.set_status STATUS_DEAD).get_failed = some true ∧
      ft1.process_event_time ⟨t2, i, EVENT_REPAIR⟩ = some ft2 ∧
      ft2.elements[i]? = some (.basic (b.set_status STATUS_ALIVE)) ∧
      (b.set_status STATUS_ALIVE).status = STATUS_ALIVE := by
  have hi : i < ft.elements.length := by
    by_contra hge
    rw [List.getElem?_eq_none (le_of_not_lt hge)] at h
    exact Option.noConfusion h
  refine ⟨⟨ft.root, ft.elements.set i (FTElem.basic (b.set_status STATUS_DEAD))⟩, ⟨ft.root, (ft.elements.set i (FTElem.basic (b.set_status STATUS_DEAD))).set i (FTElem.basic (b.set_status STATUS_ALIVE))⟩, ?_, ?_, rfl, ?_, ?_, rfl⟩
  · unfold FT.process_event_time
    rw [if_pos rfl, h]
    rfl
  · exact List.getElem?_set_eq_of_lt _ hi
  · unfold FT.process_event_time
    have hne : EVENT_REPAIR ≠ EVENT_FAILURE := by decide
    rw [if_neg hne, if_pos rfl, List.getElem?_set_eq_of_lt _ hi]
    rfl
  · rw [List.getElem?_set_eq_of_lt]
    simpa using hi

/-- Witness for C7: a one-element tree holding a single alive basic event. -/
theorem C7_witness :
    ∃ ft1 ft2 : FT,
      FT.process_event_time ⟨0, [FTElem.basic ⟨0, 0, .Exp 1, .Exp 1⟩]⟩
        ⟨3, 0, EVENT_FAILURE⟩ = some ft1 ∧
      ft1.elements[0]? =
        some (.basic ((BasicEvent.mk 0 0 (.Exp 1) (.Exp 1)).set_status
          STATUS_DEAD)) ∧
      ((BasicEvent.mk 0 0 (.Exp 1) (.Exp 1)).set_status
        STATUS_DEAD).get_failed = some true ∧
      ft1.process_event_time ⟨5, 0, EVENT_REPAIR⟩ = some ft2 ∧
      ft2.elements[0]? =
        some (.basic ((BasicEvent.mk 0 0 (.Exp 1) (.Exp 1)).set_status
          STATUS_ALIVE)) ∧
      ((BasicEvent.mk 0 0 (.Exp 1) (.Exp 1)).set_status
        STATUS_ALIVE).status = STATUS_ALIVE :=
  C7_failure_repair_round_trip ⟨0, [FTElem.basic ⟨0, 0, .Exp 1, .Exp 1⟩]⟩ 0
    ⟨0, 0, .Exp 1, .Exp 1⟩ 3 5 rfl

/-! ### Reset between trials -/

/-- What resetting does to one element: a basic event's status returns to
Alive, a gate is untouched. Characterization helper for the reset loop. -/
def resetElem : FTElem → FTElem
| .basic b => .basic (b.set_status STATUS_ALIVE)
| el => el

theorem mem_get_basic_events_iff {ft : FT} {i : Nat} :
    i ∈ ft.get_basic_events ↔
      ∃ b : BasicEvent, ft.elements[i]? = some (.basic b) := by
  unfold FT.get_basic_events
  rw [List.mem_filter, List.mem_range]
  constructor
  · rintro ⟨hlt, hmatch⟩
    cases hel : ft.elements[i]? with
    | none => rw [hel] at hmatch; simp at hmatch
    | some el =>
      rw [hel] at hmatch
      cases el with
      | basic b => exact ⟨b, rfl⟩
      | gateAnd g =>
        simp [FTElem.get_type, FT_BASIC, FT_STATIC] at hmatch
      | gateOr g =>
        simp [FTElem.get_type, FT_BASIC, FT_STATIC] at hmatch
      | gateVote g =>
        simp [FTElem.get_type, FT_BASIC, FT_STATIC] at hmatch
  · rintro ⟨b, hb⟩
    have hlt : i < ft.elements.length := by
      by_contra hge
      rw [List.getElem?_eq_none (le_of_not_lt hge)] at hb
      exact Option.noConfusion hb
    refine ⟨hlt, ?_⟩
    rw [hb]
    rfl

theorem resetLoop_spec :
    ∀ (L : List Nat) (acc : FT),
      (∀ i ∈ L, ∃ b : BasicEvent, acc.elements[i]? = some (.basic b)) →
      ∃ ft2 : FT, resetLoop L acc = some ft2 ∧
        ft2.root = acc.root ∧
        ft2.elements.length = acc.elements.length ∧
        ∀ j : Nat, ft2.elements[j]? =
          if j ∈ L then (acc.elements[j]?).map resetElem
          else acc.elements[j]? := by
  intro L
  induction L with
  | nil =>
    intro acc _
    exact ⟨acc, rfl, rfl, rfl, fun j => by simp⟩
  | cons c rest ih =>
    intro acc hL
    obtain ⟨b, hb⟩ := hL c (List.mem_cons_self c rest)
    have hlt : c < acc.elements.length := by
      by_contra hge
      rw [List.getElem?_eq_none (le_of_not_lt hge)] at hb
      exact Option.noConfusion hb
    have hpre : ∀ i ∈ rest, ∃ b2 : BasicEvent,
        (FT.mk acc.root (acc.elements.set c
          (FTElem.basic (b.set_status STATUS_ALIVE)))).elements[i]? =
          some (.basic b2) := by
      intro i hi
      by_cases hic : i = c
      · subst hic
        exact ⟨b.set_status STATUS_ALIVE, List.getElem?_set_eq_of_lt _ hlt⟩
      · obtain ⟨b2, hb2⟩ := hL i (List.mem_cons_of_mem c hi)
        refine ⟨b2, ?_⟩
        show (acc.elements.set c _)[i]? = _
        rw [List.getElem?_set_ne (show c ≠ i from fun hh => hic hh.symm)]
        exact hb2
    obtain ⟨ft2, hrun, hroot, hlen, hget⟩ :=
      ih (FT.mk acc.root (acc.elements.set c
        (FTElem.basic (b.set_status STATUS_ALIVE)))) hpre
    refine ⟨ft2, ?_, hroot, ?_, ?_⟩
    · show resetLoop (c :: rest) acc = some ft2
      unfold resetLoop
      rw [hb]
      exact hrun
    · rw [hlen]
      exact List.length_set ..
    · intro j
      rw [hget j]
      by_cases hjc : j = c
      · subst hjc
        have hj1 : (acc.elements.set j
            (FTElem.basic (b.set_status STATUS_ALIVE)))[j]? =
            some (FTElem.basic (b.set_status STATUS_ALIVE)) :=
          List.getElem?_set_eq_of_lt _ hlt
        by_cases hjr : j ∈ rest
        · rw [if_pos hjr, if_pos (List.mem_cons_self j rest)]
          show Option.map resetElem ((acc.elements.set j _)[j]?) = _
          rw [hj1, hb]
          rfl
        · rw [if_neg hjr, if_pos (List.mem_cons_self j rest)]
          show (acc.elements.set j _)[j]? = _
          rw [hj1, hb]
          rfl
      · have hj1 : (acc.elements.set c
            (FTElem.basic (b.set_status STATUS_ALIVE)))[j]? =
            acc.elements[j]? :=
          List.getElem?_set_ne (show c ≠ j from fun hh => hjc hh.symm)
        by_cases hjr : j ∈ rest
        · rw [if_pos hjr, if_pos (List.mem_cons_of_mem c hjr)]
          show Option.map resetElem ((acc.elements.set c _)[j]?) = _
          rw [hj1]
        · rw [if_neg hjr, if_neg (by simp [hjc, hjr])]
          exact hj1

theorem BasicEvent.set_status_alive_of_alive {b : BasicEvent}
    (h : b.status = STATUS_ALIVE) : b.set_status STATUS_ALIVE = b := by
  cases b with
  | mk id status fd rd =>
    simp only [BasicEvent.set_status]
    simp only at h
    rw [h]

/-- C8: reset_basic_events never panics; it returns every basic event's
status to Alive while leaving the root, the collection length, every gate,
and every out-of-range slot untouched — and when every basic event is
already Alive it returns the tree unchanged (idempotence). -/
theorem C8_reset_alive_and_frame (ft : FT) :
    (∃ ft2 : FT, ft.reset_basic_events = some ft2 ∧
      ft2.root = ft.root ∧
      ft2.elements.length = ft.elements.length ∧
      (∀ (j : Nat) (b : BasicEvent), ft.elements[j]? = some (.basic b) →
        ft2.elements[j]? = some (.basic (b.set_status STATUS_ALIVE))) ∧
      (∀ (j : Nat) (el : FTElem), ft.elements[j]? = some el → el.get_type = FT_STATIC →
        ft2.elements[j]? = some el) ∧
      (∀ j : Nat, ft.elements[j]? = none → ft2.elements[j]? = none)) ∧
    ((∀ (j : Nat) (b : BasicEvent), ft.elements[j]? = some (.basic b) →
        b.status = STATUS_ALIVE) →
      ft.reset_basic_events = some ft) := by
  have hpre : ∀ i ∈ ft.get_basic_events, ∃ b : BasicEvent,
      ft.elements[i]? = some (.basic b) :=
    fun i hi => mem_get_basic_events_iff.1 hi
  obtain ⟨ft2, hrun, hroot, hlen, hget⟩ :=
    resetLoop_spec ft.get_basic_events ft hpre
  have hbasic : ∀ (j : Nat) (b : BasicEvent), ft.elements[j]? = some (.basic b) →
      ft2.elements[j]? = some (.basic (b.set_status STATUS_ALIVE)) := by
    intro j b hj
    have hmem : j ∈ ft.get_basic_events := mem_get_basic_events_iff.2 ⟨b, hj⟩
    rw [hget j, if_pos hmem, hj]
    rfl
  constructor
  · refine ⟨ft2, hrun, hroot, hlen, hbasic, ?_, ?_⟩
    · intro j el hj htype
      have hmem : j ∉ ft.get_basic_events := by
        intro hmem
        obtain ⟨b, hb⟩ := mem_get_basic_events_iff.1 hmem
        rw [hj] at hb
        cases hb
        simp [FTElem.get_type, FT_BASIC, FT_STATIC] at htype
      rw [hget j, if_neg hmem]
      exact hj
    · intro j hj
      rw [hget j]
      by_cases hmem : j ∈ ft.get_basic_events
      · rw [if_pos hmem, hj]
        rfl
      · rw [if_neg hmem]
        exact hj
  · intro halive
    have helems : ft2.elements = ft.elements := by
      apply List.ext_get?_iff.2
      intro n
      rw [List.get?_eq_getElem?, List.get?_eq_getElem?, hget n]
      by_cases hmem : n ∈ ft.get_basic_events
      · obtain ⟨b, hb⟩ := mem_get_basic_events_iff.1 hmem
        rw [if_pos hmem, hb]
        show some (resetElem (FTElem.basic b)) = _
        have := halive n b hb
        show some (FTElem.basic (b.set_status STATUS_ALIVE)) = _
        rw [BasicEvent.set_status_alive_of_alive this]
      · rw [if_neg hmem]
    have : ft2 = ft := by
      cases ft2 with
      | mk r2 e2 =>
        cases ft with
        | mk r e =>
          simp only at hroot helems
          rw [hroot, helems]
    show resetLoop ft.get_basic_events ft = some ft
    rw [hrun, this]

/-- Witness for C8 at a concrete one-basic-event tree that is already all
Alive. -/
theorem C8_witness :
    (∃ ft2 : FT,
      FT.reset_basic_events ⟨0, [FTElem.basic ⟨0, 0, .Exp 1, .None⟩]⟩ =
        some ft2 ∧
      ft2.root = (FT.mk 0 [FTElem.basic ⟨0, 0, .Exp 1, .None⟩]).root ∧
      ft2.elements.length =
        (FT.mk 0 [FTElem.basic ⟨0, 0, .Exp 1, .None⟩]).elements.length ∧
      (∀ (j : Nat) (b : BasicEvent),
        (FT.mk 0 [FTElem.basic ⟨0, 0, .Exp 1, .None⟩]).elements[j]? =
          some (.basic b) →
        ft2.elements[j]? = some (.basic (b.set_status STATUS_ALIVE))) ∧
      (∀ (j : Nat) (el : FTElem),
        (FT.mk 0 [FTElem.basic ⟨0, 0, .Exp 1, .None⟩]).elements[j]? =
          some el → el.get_type = FT_STATIC →
        ft2.elements[j]? = some el) ∧
      (∀ j : Nat,
        (FT.mk 0 [FTElem.basic ⟨0, 0, .Exp 1, .None⟩]).elements[j]? = none →
        ft2.elements[j]? = none)) ∧
    FT.reset_basic_events ⟨0, [FTElem.basic ⟨0, 0, .Exp 1, .None⟩]⟩ =
      some ⟨0, [FTElem.basic ⟨0, 0, .Exp 1, .None⟩]⟩ := by
  refine ⟨(C8_reset_alive_and_frame ⟨0, [FTElem.basic ⟨0, 0, .Exp 1, .None⟩]⟩).1, ?_⟩
  apply (C8_reset_alive_and_frame ⟨0, [FTElem.basic ⟨0, 0, .Exp 1, .None⟩]⟩).2
  intro j b hj
  match j with
  | 0 =>
    simp only [List.getElem?_cons_zero, Option.some.injEq] at hj
    cases hj
    rfl
  | n + 1 =>
    simp at hj

/-! ### Trial loop -/

/-- C4: in the trial loop, after a Failure event is applied and the root is
not failed, a Repair event at (event time + sampled repair interval) is
scheduled iff the sampled interval is strictly positive — an interval of
exactly zero (or less) schedules nothing; and a Repair event never ends the
trial: the loop always continues after scheduling a new Failure event for
the affected element. -/
theorem C4_repair_scheduling_and_repair_continues (root : Nat) (draw : ℚ)
    (ft ft2 : FT) (ev : EventTime) (rest : List EventTime) (ri fi : ℚ) :
    (ev.event_type = EVENT_FAILURE →
      ft.process_event_time ev = some ft2 →
      ft2.get_failed root = some false →
      ft2.sample_repair ev.element draw = some (.ok ri) →
      trialStep root draw ft (ev :: rest) =
        some (.next ft2 (if 0 < ri then
          insertEvent ⟨ev.time + ri, ev.element, EVENT_REPAIR⟩ rest
        else rest))) ∧
    (ev.event_type = EVENT_REPAIR →
      ft.process_event_time ev = some ft2 →
      ft2.sample_failure ev.element draw = some (.ok fi) →
      trialStep root draw ft (ev :: rest) =
        some (.next ft2
          (insertEvent ⟨ev.time + fi, ev.element, EVENT_FAILURE⟩ rest))) := by
  constructor
  · intro htype hproc hroot hsr
    simp only [trialStep, hproc, htype, hroot, hsr]
    by_cases hri : 0 < ri
    · simp [hri]
    · simp [hri]
  · intro htype hproc hsf
    simp [trialStep, hproc, htype, hsf, EVENT_REPAIR, EVENT_FAILURE]

/-- Witness for C4: a two-basic-event AND tree. A Failure of element 0 at
t = 1 leaves the AND root standing and schedules its Repair at t = 1 + 5;
a Repair of element 0 at t = 1 continues the trial and schedules its next
Failure at t = 1 + 7. -/
theorem C4_witness :
    (trialStep 2 5
        ⟨2, [FTElem.basic ⟨0, 0, .Exp 1, .Exp 1⟩,
             FTElem.basic ⟨1, 0, .Exp 1, .Exp 1⟩,
             FTElem.gateAnd ⟨2, [0, 1]⟩]⟩
        [⟨1, 0, EVENT_FAILURE⟩] =
      some (.next
        ⟨2, [FTElem.basic ⟨0, 1, .Exp 1, .Exp 1⟩,
             FTElem.basic ⟨1, 0, .Exp 1, .Exp 1⟩,
             FTElem.gateAnd ⟨2, [0, 1]⟩]⟩
        (if (0 : ℚ) < 5 then
          insertEvent ⟨(⟨1, 0, EVENT_FAILURE⟩ : EventTime).time + 5,
            (⟨1, 0, EVENT_FAILURE⟩ : EventTime).element, EVENT_REPAIR⟩ []
        else []))) ∧
    (trialStep 2 7
        ⟨2, [FTElem.basic ⟨0, 1, .Exp 1, .Exp 1⟩,
             FTElem.basic ⟨1, 0, .Exp 1, .Exp 1⟩,
             FTElem.gateAnd ⟨2, [0, 1]⟩]⟩
        [⟨1, 0, EVENT_REPAIR⟩] =
      some (.next
        ⟨2, [FTElem.basic ⟨0, 0, .Exp 1, .Exp 1⟩,
             FTElem.basic ⟨1, 0, .Exp 1, .Exp 1⟩,
             FTElem.gateAnd ⟨2, [0, 1]⟩]⟩
        (insertEvent ⟨(⟨1, 0, EVENT_REPAIR⟩ : EventTime).time + 7,
          (⟨1, 0, EVENT_REPAIR⟩ : EventTime).element, EVENT_FAILURE⟩ []))) :=
  ⟨(C4_repair_scheduling_and_repair_continues 2 5
      ⟨2, [FTElem.basic ⟨0, 0, .Exp 1, .Exp 1⟩,
           FTElem.basic ⟨1, 0, .Exp 1, .Exp 1⟩,
           FTElem.gateAnd ⟨2, [0, 1]⟩]⟩
      ⟨2, [FTElem.basic ⟨0, 1, .Exp 1, .Exp 1⟩,
           FTElem.basic ⟨1, 0, .Exp 1, .Exp 1⟩,
           FTElem.gateAnd ⟨2, [0, 1]⟩]⟩
      ⟨1, 0, EVENT_FAILURE⟩ [] 5 7).1 rfl rfl rfl rfl,
   (C4_repair_scheduling_and_repair_continues 2 7
      ⟨2, [FTElem.basic ⟨0, 1, .Exp 1, .Exp 1⟩,
           FTElem.basic ⟨1, 0, .Exp 1, .Exp 1⟩,
           FTElem.gateAnd ⟨2, [0, 1]⟩]⟩
      ⟨2, [FTElem.basic ⟨0, 0, .Exp 1, .Exp 1⟩,
           FTElem.basic ⟨1, 0, .Exp 1, .Exp 1⟩,
           FTElem.gateAnd ⟨2, [0, 1]⟩]⟩
      ⟨1, 0, EVENT_REPAIR⟩ [] 5 7).2 rfl rfl rfl⟩

end MC
